import Mathlib

/-!
Shallow embedding of the ESP32-Gamepad task scheduler
(`src/components/task_scheduler/src/task_scheduler.c`, declarations in
`src/components/task_scheduler/include/task_scheduler.h`).

Modelling conventions:
* C `uint32_t` values are `Nat` with explicit `% 2^32` wherever the source
  can overflow or wrap (`u32add`, `u32sub`, the task-id counter).
* Pointers (`task_function_t`, `task_condition_t`, callbacks, names,
  `TaskHandle_t`, `esp_timer_handle_t`) are modelled as `Nat`, with `0`
  standing for `NULL`; a nonzero value stands for a live pointer/handle.
  The registry model never invokes the callbacks, so only NULL-ness and
  identity of handles matter at this level.
* The scheduler state models an initialised scheduler (`is_initialized`
  is true; `task_scheduler_init` produces the initial state).  The mutex
  is modelled by a `mutexHeld` flag: in the sequential interleaving model
  every facade call finds the mutex free unless a previous call leaked it
  without releasing (see `task_scheduler_delete_task_self`); a call that
  finds it held models the 1000 ms `xSemaphoreTake` timeout and fails
  without mutating anything, exactly as the source does.
* `xTaskCreate` / `esp_timer_create` / `esp_timer_start_once` can fail for
  resource reasons; each create call therefore takes a `spawnOk : Bool`
  oracle selecting between the success path and the rollback path of the
  source.
* `esp_timer_get_time()/1000` is passed in as an explicit `now : Nat`
  millisecond clock where the source reads it.
-/

/-- `MAX_TASKS` from task_scheduler.c line 24. -/
def MAX_TASKS : Nat := 32

/-- `INVALID_TASK_ID` from task_scheduler.h line 58. -/
def INVALID_TASK_ID : Nat := 0

/-- 2^32, the modulus of `uint32_t` arithmetic. -/
def U32 : Nat := 4294967296

/-- `uint32_t` addition. -/
def u32add (a b : Nat) : Nat := (a + b) % U32

/-- `uint32_t` subtraction (wrapping). -/
def u32sub (a b : Nat) : Nat := (a % U32 + (U32 - b % U32)) % U32

/-- `task_type_t` values (task_scheduler.h lines 26-32). -/
def TASK_TYPE_PERIODIC : Nat := 0
def TASK_TYPE_ONESHOT : Nat := 1
def TASK_TYPE_DELAYED : Nat := 2
def TASK_TYPE_CONDITIONAL : Nat := 3
def TASK_TYPE_MAX : Nat := 4

/-- `task_state_t` values (task_scheduler.h lines 35-43). -/
def TASK_STATE_CREATED : Nat := 0
def TASK_STATE_READY : Nat := 1
def TASK_STATE_RUNNING : Nat := 2
def TASK_STATE_SUSPENDED : Nat := 3
def TASK_STATE_COMPLETED : Nat := 4
def TASK_STATE_ERROR : Nat := 5

/-- ESP-IDF error codes as used by the translation units above. -/
inductive EspErr where
  | ok
  | invalidArg
  | timeout
  | notFound
  | invalidState
  | noMem
deriving DecidableEq

/-- `task_config_t` (task_scheduler.h lines 70-83).  Pointer-typed fields
(`function`, `condition`, `callback`, `name`, `param`) are `Nat` with
`0 = NULL`. -/
structure TaskConfig where
  type : Nat
  priority : Nat
  function : Nat
  param : Nat
  period_ms : Nat
  delay_ms : Nat
  condition : Nat
  callback : Nat
  stack_size : Nat
  max_execution_time_ms : Nat
  auto_delete : Bool
  name : Nat
deriving DecidableEq

/-- `task_stats_t` (task_scheduler.h lines 86-97). -/
structure TaskStats where
  execution_count : Nat
  total_execution_time_ms : Nat
  avg_execution_time_ms : Nat
  max_execution_time_ms : Nat
  min_execution_time_ms : Nat
  missed_deadlines : Nat
  error_count : Nat
  current_state : Nat
  last_execution_time : Nat
  next_execution_time : Nat
deriving DecidableEq

/-- The scheduler-wide statistics fields actually read and written by
task_scheduler.c (`scheduler_stats.total_tasks_created`, `.active_tasks`,
`.total_executions`, `.total_execution_time_ms`, `.avg_execution_time_ms`,
`.start_time`, `.uptime_ms`).  (The struct declared in task_scheduler.h
lists a different field set; the .c file is the authority for the
behaviour of the functions modelled here.) -/
structure SchedStats where
  total_tasks_created : Nat
  active_tasks : Nat
  total_executions : Nat
  total_execution_time_ms : Nat
  avg_execution_time_ms : Nat
  start_time : Nat
  uptime_ms : Nat
deriving DecidableEq

/-- `scheduler_task_t` (task_scheduler.c lines 27-36). -/
structure SchedulerTask where
  id : Nat
  config : TaskConfig
  stats : TaskStats
  handle : Nat
  is_active : Bool
  create_time : Nat
  last_wakeup_time : Nat
  timer : Nat
deriving DecidableEq

/-- The static state of task_scheduler.c: `tasks[MAX_TASKS]`, `task_count`,
`next_task_id`, `scheduler_stats`, plus the mutex-held flag (see header
comment). -/
structure SchedulerState where
  tasks : List SchedulerTask
  task_count : Nat
  next_task_id : Nat
  scheduler_stats : SchedStats
  mutexHeld : Bool
deriving DecidableEq

/-- An all-zero `task_config_t` (result of `memset` / static zero init). -/
def zeroConfig : TaskConfig :=
  { type := 0, priority := 0, function := 0, param := 0, period_ms := 0,
    delay_ms := 0, condition := 0, callback := 0, stack_size := 0,
    max_execution_time_ms := 0, auto_delete := false, name := 0 }

/-- An all-zero `task_stats_t`. -/
def zeroStats : TaskStats :=
  { execution_count := 0, total_execution_time_ms := 0,
    avg_execution_time_ms := 0, max_execution_time_ms := 0,
    min_execution_time_ms := 0, missed_deadlines := 0, error_count := 0,
    current_state := 0, last_execution_time := 0, next_execution_time := 0 }

/-- An all-zero `scheduler_task_t` slot (after `memset(tasks, 0, ...)`). -/
def zeroTask : SchedulerTask :=
  { id := 0, config := zeroConfig, stats := zeroStats, handle := 0,
    is_active := false, create_time := 0, last_wakeup_time := 0, timer := 0 }

/-- All-zero scheduler statistics. -/
def zeroSchedStats : SchedStats :=
  { total_tasks_created := 0, active_tasks := 0, total_executions := 0,
    total_execution_time_ms := 0, avg_execution_time_ms := 0,
    start_time := 0, uptime_ms := 0 }

/-- `task_scheduler_init` (task_scheduler.c lines 59-90): zeroes the task
table, resets `task_count` and `next_task_id`, zeroes the statistics and
records the start time. -/
def task_scheduler_init (now : Nat) : SchedulerState :=
  { tasks := List.replicate MAX_TASKS zeroTask,
    task_count := 0,
    next_task_id := 1,
    scheduler_stats := { zeroSchedStats with start_time := now % U32 },
    mutexHeld := false }

/-- The id-counter step of `task_scheduler_create_task`
(task_scheduler.c lines 152-155): `next_task_id++` with `uint32_t`
wraparound, then skip the reserved value 0. -/
def wrapNext (v : Nat) : Nat :=
  let n := (v + 1) % U32
  if n = 0 then 1 else n

/-- Stats of a freshly created task (task_scheduler.c lines 160-162):
zeroed, state `TASK_STATE_CREATED`, `min_execution_time_ms = UINT32_MAX`. -/
def freshStats : TaskStats :=
  { zeroStats with
    current_state := TASK_STATE_CREATED,
    min_execution_time_ms := U32 - 1 }

/-- The slot initialisation of `task_scheduler_create_task`
(task_scheduler.c lines 158-223) applied to the previous slot contents
`t`.  Note the source does NOT reset `last_wakeup_time`, so it is kept.
On the success path a thread-backed task gets a FreeRTOS handle
(modelled as `1`) and a delayed task gets a started timer (modelled as
`1`); on the spawn-failure path the source reverts `is_active` to false
and (for delayed tasks) deletes the timer, leaving the remaining fields
written. -/
def wireTask (cfg : TaskConfig) (id now : Nat) (spawnOk : Bool)
    (t : SchedulerTask) : SchedulerTask :=
  let b := { t with
             id := id, config := cfg, stats := freshStats,
             is_active := true, create_time := now % U32,
             handle := 0, timer := 0 }
  if spawnOk then
    (if cfg.type = TASK_TYPE_DELAYED then { b with timer := 1 }
     else { b with handle := 1 })
  else { b with is_active := false }

/-- `find_free_task_slot` (task_scheduler.c lines 578-586) fused with the
subsequent in-place slot write: replace the first inactive slot by `f`
applied to it, or return `none` if every slot is active. -/
def modifyFirstFree (f : SchedulerTask → SchedulerTask) :
    List SchedulerTask → Option (List SchedulerTask)
  | [] => none
  | t :: ts =>
      if t.is_active then (modifyFirstFree f ts).map (fun l => t :: l)
      else some (f t :: ts)

/-- `task_scheduler_create_task` (task_scheduler.c lines 124-234).
Returns the allocated id (`INVALID_TASK_ID = 0` on failure) and the new
state.  The `config == NULL` / `!is_initialized` guards are part of the
first validation branch (the model always passes a config and an
initialised scheduler). -/
def task_scheduler_create_task (cfg : TaskConfig) (spawnOk : Bool)
    (now : Nat) (st : SchedulerState) : Nat × SchedulerState :=
  if cfg.function = 0 then (INVALID_TASK_ID, st)
  else if TASK_TYPE_MAX ≤ cfg.type then (INVALID_TASK_ID, st)
  else if st.mutexHeld then (INVALID_TASK_ID, st)
  else
    let id := st.next_task_id
    let nx := wrapNext st.next_task_id
    match modifyFirstFree (wireTask cfg id now spawnOk) st.tasks with
    | none => (INVALID_TASK_ID, st)
    | some ts =>
        if spawnOk then
          (id, { st with
                 tasks := ts, next_task_id := nx,
                 task_count := u32add st.task_count 1,
                 scheduler_stats := { st.scheduler_stats with
                   total_tasks_created :=
                     u32add st.scheduler_stats.total_tasks_created 1,
                   active_tasks :=
                     u32add st.scheduler_stats.active_tasks 1 } })
        else
          (INVALID_TASK_ID,
           { st with tasks := ts, next_task_id := nx })

/-- The per-slot cleanup of `task_scheduler_delete_task`
(task_scheduler.c lines 258-273): stop/delete the timer, delete the
FreeRTOS task, clear `is_active`, set state `TASK_STATE_COMPLETED`. -/
def cleanupTask (t : SchedulerTask) : SchedulerTask :=
  { t with
    timer := 0, handle := 0, is_active := false,
    stats := { t.stats with current_state := TASK_STATE_COMPLETED } }

/-- `find_task_by_id` (task_scheduler.c lines 565-573) fused with the
deletion cleanup: clean up the first active slot whose id matches, or
return `none`. -/
def deleteFirstById (id : Nat) :
    List SchedulerTask → Option (List SchedulerTask)
  | [] => none
  | t :: ts =>
      if t.is_active ∧ t.id = id then some (cleanupTask t :: ts)
      else (deleteFirstById id ts).map (fun l => t :: l)

/-- `task_scheduler_delete_task` (task_scheduler.c lines 239-281), called
from outside the task's own execution context (the `vTaskDelete` of a
foreign handle returns normally). -/
def task_scheduler_delete_task (id : Nat) (st : SchedulerState) :
    EspErr × SchedulerState :=
  if id = INVALID_TASK_ID then (EspErr.invalidArg, st)
  else if st.mutexHeld then (EspErr.timeout, st)
  else
    match deleteFirstById id st.tasks with
    | none => (EspErr.notFound, st)
    | some ts =>
        (EspErr.ok,
         { st with
           tasks := ts,
           task_count := u32sub st.task_count 1,
           scheduler_stats := { st.scheduler_stats with
             active_tasks := u32sub st.scheduler_stats.active_tasks 1 } })

/-- `find_task_by_id` (task_scheduler.c lines 565-573), read-only. -/
def findById (id : Nat) : List SchedulerTask → Option SchedulerTask
  | [] => none
  | t :: ts => if t.is_active ∧ t.id = id then some t else findById id ts

/-- The per-slot shutdown of `task_scheduler_stop_all_tasks`
(task_scheduler.c lines 416-434): every active slot is cleaned up exactly
as by delete; inactive slots are untouched. -/
def stopSlot (t : SchedulerTask) : SchedulerTask :=
  if t.is_active then cleanupTask t else t

/-- `task_scheduler_stop_all_tasks` (task_scheduler.c lines 403-443). -/
def task_scheduler_stop_all_tasks (st : SchedulerState) :
    EspErr × SchedulerState :=
  if st.mutexHeld then (EspErr.timeout, st)
  else
    (EspErr.ok,
     { st with
       tasks := st.tasks.map stopSlot,
       task_count := 0,
       scheduler_stats := { st.scheduler_stats with active_tasks := 0 } })

/-- `task_scheduler_get_task_stats` (task_scheduler.c lines 354-375):
returns a copy of the task's `task_stats_t` and the (unchanged) state. -/
def task_scheduler_get_task_stats (id : Nat) (st : SchedulerState) :
    EspErr × Option TaskStats × SchedulerState :=
  if id = INVALID_TASK_ID then (EspErr.invalidArg, none, st)
  else if st.mutexHeld then (EspErr.timeout, none, st)
  else
    match findById id st.tasks with
    | none => (EspErr.notFound, none, st)
    | some t => (EspErr.ok, some t.stats, st)

/-- `task_scheduler_get_stats` (task_scheduler.c lines 380-398): refreshes
`scheduler_stats.uptime_ms` from the current time and then returns a copy
of the scheduler statistics. -/
def task_scheduler_get_stats (now : Nat) (st : SchedulerState) :
    EspErr × Option SchedStats × SchedulerState :=
  if st.mutexHeld then (EspErr.timeout, none, st)
  else
    let s := { st.scheduler_stats with
               uptime_ms := u32sub now st.scheduler_stats.start_time }
    (EspErr.ok, some s, { st with scheduler_stats := s })

/-- Modelled from the spec: `task_scheduler_list_tasks` is declared in
include/task_scheduler.h (line 282) but has no definition anywhere under
src/.  Per the spec, `listTasks() -> sequence of identities` is a
snapshot of the identities of the currently-active tasks, bounded by
capacity. -/
def task_scheduler_list_tasks (st : SchedulerState) : List Nat :=
  (st.tasks.filter (fun t => t.is_active)).map (fun t => t.id)

/-- Identities of the active records of a task table (the list underlying
`task_scheduler_list_tasks`). -/
def activeIds (l : List SchedulerTask) : List Nat :=
  (l.filter (fun t => t.is_active)).map (fun t => t.id)

/-- Number of slots whose active flag is set. -/
def countActives (l : List SchedulerTask) : Nat :=
  (l.filter (fun t => t.is_active)).length

/-- A facade operation on the registry, with the inputs the corresponding
C function reads from its environment. -/
inductive SchedOp where
  | create (cfg : TaskConfig) (spawnOk : Bool) (now : Nat)
  | delete (id : Nat)
  | stopAll
deriving DecidableEq

/-- Apply one facade operation to the scheduler state. -/
def applySchedOp (st : SchedulerState) : SchedOp → SchedulerState
  | SchedOp.create cfg ok now => (task_scheduler_create_task cfg ok now st).2
  | SchedOp.delete id => (task_scheduler_delete_task id st).2
  | SchedOp.stopAll => (task_scheduler_stop_all_tasks st).2

/-- Run a sequence of facade operations. -/
def runOps (ops : List SchedOp) (st : SchedulerState) : SchedulerState :=
  ops.foldl applySchedOp st

/-- Replace (in place) the first active record with the given id by `f`
applied to it; used to model partial in-place mutation of a found slot. -/
def replaceFirstById (id : Nat) (f : SchedulerTask → SchedulerTask) :
    List SchedulerTask → List SchedulerTask
  | [] => []
  | t :: ts =>
      if t.is_active ∧ t.id = id then f t :: ts
      else t :: replaceFirstById id f ts

/-- The timer cleanup prefix of `task_scheduler_delete_task`
(task_scheduler.c lines 258-263). -/
def stopTimerOnly (t : SchedulerTask) : SchedulerTask := { t with timer := 0 }

/-- `task_scheduler_delete_task` invoked from inside the execution context
of the task being deleted (the auto-remove path of `task_wrapper`,
task_scheduler.c lines 526-528, or a completion callback deleting its own
identity).  The source takes `scheduler_mutex`, stops/deletes the timer,
and then calls `vTaskDelete(task->handle)` (line 267).  When `handle` is
the FreeRTOS handle of the calling task itself, `vTaskDelete` terminates
the caller and never returns, so the remaining statements — including
`xSemaphoreGive(scheduler_mutex)` on line 279 — never execute: the state
keeps the record active and the mutex held.  When the record has no
thread handle, the deletion completes as from the outside. -/
def task_scheduler_delete_task_self (id : Nat) (st : SchedulerState) :
    SchedulerState :=
  if id = INVALID_TASK_ID then st
  else if st.mutexHeld then st
  else
    match findById id st.tasks with
    | none => st
    | some t =>
        if t.handle = 0 then (task_scheduler_delete_task id st).2
        else
          { st with
            tasks := replaceFirstById id stopTimerOnly st.tasks,
            mutexHeld := true }

/-- Position of the execution unit in the `task_wrapper` control flow
(task_scheduler.c lines 448-532): still in the `while (task->is_active)`
loop, or past it (loop exited via the flag or the one-shot `break`). -/
inductive WPhase where
  | inLoop
  | done
deriving DecidableEq

/-- The task-local state read and written by the `task_wrapper` execution
loop: the record's active flag, its execution count (the only stats field
the one-shot dispatch rule reads, updated by `update_task_stats` line 593),
and the loop phase. -/
structure WState where
  is_active : Bool
  execution_count : Nat
  phase : WPhase
deriving DecidableEq

/-- The per-pass dispatch rule of `task_wrapper` (task_scheduler.c lines
462-479).  `c` is the value returned by the conditional predicate on this
pass (irrelevant for the other policies). -/
def shouldExecute (ty : Nat) (c : Bool) (w : WState) : Bool :=
  if ty = TASK_TYPE_PERIODIC then true
  else if ty = TASK_TYPE_ONESHOT then w.execution_count = 0
  else if ty = TASK_TYPE_CONDITIONAL then c
  else false

/-- Effect of one pass of the `task_wrapper` loop body (task_scheduler.c
lines 458-516) for a task of type `ty`: if eligible, the body runs and
`update_task_stats` increments the execution count (`uint32_t`), and a
one-shot task then leaves the loop (`break`, lines 504-506); otherwise
the pass is a delay with no state change. -/
def passResult (ty : Nat) (c : Bool) (w : WState) : WState :=
  if shouldExecute ty c w then
    let w1 := { w with execution_count := u32add w.execution_count 1 }
    if ty = TASK_TYPE_ONESHOT then { w1 with phase := WPhase.done } else w1
  else w

/-- One step of the `task_wrapper` execution unit, interleaved with its
environment: the facade may clear the active flag at any time
(`task_scheduler_delete_task` / `task_scheduler_stop_all_tasks` set
`is_active = false`); the loop either observes `is_active == false` and
exits, or runs one pass. -/
inductive WStep (ty : Nat) : WState → WState → Prop
  | deactivate (w : WState) : WStep ty w { w with is_active := false }
  | exitLoop (w : WState) :
      w.phase = WPhase.inLoop → w.is_active = false →
      WStep ty w { w with phase := WPhase.done }
  | pass (w : WState) (c : Bool) :
      w.phase = WPhase.inLoop → w.is_active = true →
      WStep ty w (passResult ty c w)

/-- Initial task-local state of a freshly spawned execution unit: record
active, execution count zeroed by creation, control inside the loop. -/
def wInit : WState :=
  { is_active := true, execution_count := 0, phase := WPhase.inLoop }

/-- States of the `task_wrapper` execution unit reachable from spawn. -/
inductive WReach (ty : Nat) : WState → Prop
  | init : WReach ty wInit
  | step {w w' : WState} : WReach ty w → WStep ty w w' → WReach ty w'

/-- State of one delayed task and its `esp_timer` one-shot timer, as
manipulated by `task_scheduler_create_task` (TASK_TYPE_DELAYED branch,
task_scheduler.c lines 191-216), `periodic_timer_callback` (lines
537-560), `task_scheduler_suspend_task` (lines 309-311),
`task_scheduler_resume_task` (lines 343-345) and
`task_scheduler_delete_task` (lines 258-269).  `fires` counts invocations
of the task body by the timer callback. -/
structure DState where
  is_active : Bool
  timer_exists : Bool
  armed : Bool
  fires : Nat
deriving DecidableEq

/-- Events affecting a delayed task created with `auto_delete = false`
and a non-NULL task function. -/
inductive DEv where
  | fire
  | susp
  | resume
  | del
deriving DecidableEq

/-- Semantics of one event:
* `fire`: the armed one-shot timer expires; `periodic_timer_callback`
  runs the body iff the record is still active (line 541).
* `susp`: `task_scheduler_suspend_task`; the record has no thread handle
  so only `esp_timer_stop` acts (lines 309-311).
* `resume`: `task_scheduler_resume_task`; for `TASK_TYPE_DELAYED` the
  source re-arms the delay unconditionally with `esp_timer_start_once`
  (lines 343-345).
* `del`: `task_scheduler_delete_task` from outside: stops and deletes the
  timer and clears the active flag (lines 258-272). -/
def dStep (s : DState) : DEv → DState
  | DEv.fire =>
      if s.armed then
        let s1 := { s with armed := false }
        if s1.is_active then { s1 with fires := s1.fires + 1 } else s1
      else s
  | DEv.susp => if s.timer_exists then { s with armed := false } else s
  | DEv.resume => if s.timer_exists then { s with armed := true } else s
  | DEv.del =>
      { s with is_active := false, armed := false, timer_exists := false }

/-- State of a delayed task right after a successful
`task_scheduler_create_task`: record active, timer created and started
once with the configured delay. -/
def dInit : DState :=
  { is_active := true, timer_exists := true, armed := true, fires := 0 }

/-- Run a sequence of events on a delayed task. -/
def dRun (evs : List DEv) (s : DState) : DState := evs.foldl dStep s

/-- A well-formed one-shot configuration used as a concrete input. -/
def cfgOneShot : TaskConfig :=
  { type := TASK_TYPE_ONESHOT, priority := 5, function := 1, param := 0,
    period_ms := 0, delay_ms := 0, condition := 0, callback := 0,
    stack_size := 2048, max_execution_time_ms := 0, auto_delete := false,
    name := 0 }

/-- A periodic configuration with period 0 and a valid callback. -/
def cfgPeriodicZero : TaskConfig :=
  { cfgOneShot with type := TASK_TYPE_PERIODIC, period_ms := 0 }

/-- A one-shot configuration with the auto-remove flag set. -/
def cfgAutoOneShot : TaskConfig := { cfgOneShot with auto_delete := true }

/-- A full table: every one of the `MAX_TASKS` slots is active. -/
def fullState : SchedulerState :=
  { tasks := List.replicate MAX_TASKS
      { zeroTask with id := 1, is_active := true, handle := 1 },
    task_count := 32, next_task_id := 33,
    scheduler_stats := { zeroSchedStats with active_tasks := 32 },
    mutexHeld := false }

/-- The inductive invariant of the registry: fixed table size, and the
three active-task counters agree. -/
def CountInv (st : SchedulerState) : Prop :=
  st.tasks.length = MAX_TASKS ∧
  st.task_count = countActives st.tasks ∧
  st.scheduler_stats.active_tasks = st.task_count

/-- The inductive invariant behind identity uniqueness: every active
identity is nonzero and strictly below the identity counter, the active
identities are pairwise distinct, and the counter is at least 1. -/
def IdInv (st : SchedulerState) : Prop :=
  (∀ x ∈ activeIds st.tasks, 1 ≤ x ∧ x < st.next_task_id) ∧
  (activeIds st.tasks).Nodup ∧
  1 ≤ st.next_task_id

/-- Number of create operations in a sequence of facade operations. -/
def createCount : List SchedOp → Nat
  | [] => 0
  | SchedOp.create _ _ _ :: rest => createCount rest + 1
  | SchedOp.delete _ :: rest => createCount rest
  | SchedOp.stopAll :: rest => createCount rest

/-- The record of a task created into a previously-zero (or cleaned) slot
by `task_scheduler_create_task` with config `cfgOneShot`, id `v`, at
time 0. -/
def roundRec (v : Nat) : SchedulerTask :=
  { zeroTask with
    id := v, config := cfgOneShot, stats := freshStats,
    is_active := true, handle := 1 }

/-- The residue such a record leaves in its slot after
`task_scheduler_delete_task`. -/
def residualRec (v : Nat) : SchedulerTask := cleanupTask (roundRec v)

/-- Scheduler state with one long-lived task of id 1 in slot 0, an
inactive slot 1, identity counter `v` and total-created counter `tc`. -/
def mkR (v tc : Nat) (s1 : SchedulerTask) : SchedulerState :=
  { tasks := roundRec 1 :: s1 :: List.replicate 30 zeroTask,
    task_count := 1, next_task_id := v,
    scheduler_stats := { zeroSchedStats with
      total_tasks_created := tc, active_tasks := 1 },
    mutexHeld := false }

/-- State in the middle of a create/delete round: slot 0 holds the task
of id 1, slot 1 the freshly created task of id `v`. -/
def midR (v nx tt : Nat) : SchedulerState :=
  { tasks := roundRec 1 :: roundRec v :: List.replicate 30 zeroTask,
    task_count := 2, next_task_id := nx,
    scheduler_stats := { zeroSchedStats with
      total_tasks_created := tt, active_tasks := 2 },
    mutexHeld := false }

/-- State after the two final creates of the wraparound scenario: three
active tasks with ids 1, `v` and `nx`. -/
def finR (v nx tt : Nat) : SchedulerState :=
  { tasks := roundRec 1 :: roundRec v :: roundRec nx ::
      List.replicate 29 zeroTask,
    task_count := 3, next_task_id := wrapNext nx,
    scheduler_stats := { zeroSchedStats with
      total_tasks_created := tt, active_tasks := 3 },
    mutexHeld := false }

/-- `n` create/delete rounds: each round creates a fresh task (whose id
follows the counter, starting at `v`) and immediately deletes it. -/
def roundsLin : Nat → Nat → List SchedOp
  | _, 0 => []
  | v, n + 1 => SchedOp.create cfgOneShot true 0 :: SchedOp.delete v ::
      roundsLin (v + 1) n

/-- The wraparound scenario: create one long-lived task (id 1), then
run `2^32 - 3` create/delete rounds driving the identity counter to
`2^32 - 1`, then create twice more: the counter wraps to 1 and the last
create returns id 1 while the first task, also of id 1, is still
active. -/
def wrapOps : List SchedOp :=
  SchedOp.create cfgOneShot true 0 ::
    (roundsLin 2 (U32 - 3) ++
      [SchedOp.create cfgOneShot true 0, SchedOp.create cfgOneShot true 0])

/-! ### Helper lemmas -/

theorem modifyFirstFree_none_of_all_active
    (f : SchedulerTask → SchedulerTask) (l : List SchedulerTask)
    (h : ∀ t ∈ l, t.is_active = true) : modifyFirstFree f l = none := by
  induction l with
  | nil => rfl
  | cons t ts ih =>
      have ht : t.is_active = true := h t (by simp)
      simp [modifyFirstFree, ht, ih (fun x hx => h x (by simp [hx]))]

theorem deleteFirstById_none_of_absent (id : Nat) (l : List SchedulerTask)
    (h : ∀ t ∈ l, t.is_active = true → t.id ≠ id) :
    deleteFirstById id l = none := by
  induction l with
  | nil => rfl
  | cons t ts ih =>
      have ht : ¬(t.is_active = true ∧ t.id = id) := by
        rintro ⟨h1, h2⟩; exact h t (by simp) h1 h2
      simp only [deleteFirstById, if_neg ht,
        ih (fun x hx => h x (by simp [hx]))]
      rfl

/-! ### C2 -/

/-- C2: in every scheduler state in which all capacity slots are active,
`task_scheduler_create_task` fails (returns `INVALID_TASK_ID`, the
capacity-exceeded outcome) and leaves the whole scheduler state — task
table, active-task count, identity counter and statistics — unchanged. -/
theorem create_at_full_capacity_fails_without_side_effects
    (cfg : TaskConfig) (ok : Bool) (now : Nat) (st : SchedulerState)
    (hfull : ∀ t ∈ st.tasks, t.is_active = true) :
    task_scheduler_create_task cfg ok now st = (INVALID_TASK_ID, st) := by
  have hnone := modifyFirstFree_none_of_all_active
      (wireTask cfg st.next_task_id now ok) st.tasks hfull
  unfold task_scheduler_create_task
  split
  · rfl
  · split
    · rfl
    · split
      · rfl
      · simp only [hnone]

/-- Witness for C2 at a concrete full table. -/
theorem create_at_full_capacity_witness :
    (∀ t ∈ fullState.tasks, t.is_active = true) ∧
    task_scheduler_create_task cfgOneShot true 0 fullState
      = (INVALID_TASK_ID, fullState) :=
  ⟨by decide, create_at_full_capacity_fails_without_side_effects
      cfgOneShot true 0 fullState (by decide)⟩

/-! ### C3 -/

/-- C3 counterexample: the source never validates `period_ms`.  A Periodic
configuration with period 0 (non-positive) and a valid callback is
accepted by `task_scheduler_create_task`: it returns the fresh identity 1
(not `INVALID_TASK_ID`) and allocates a slot, contradicting the claim
that such configurations are rejected with `InvalidConfig` and create no
state. -/
theorem create_accepts_zero_period_periodic :
    (task_scheduler_create_task cfgPeriodicZero true 0
        (task_scheduler_init 0)).1 = 1 ∧
    (1 : Nat) ≠ INVALID_TASK_ID ∧
    (task_scheduler_create_task cfgPeriodicZero true 0
        (task_scheduler_init 0)).2.task_count = 1 := by decide

/-- C3 (amended): `task_scheduler_create_task` rejects a configuration —
returning `INVALID_TASK_ID` with no slot allocated, no execution unit
started and no counter changed — exactly when the callback is missing
(`function == NULL`) or the policy is invalid (`type >= TASK_TYPE_MAX`);
a non-positive period for a Periodic task is not validated and such a
configuration is accepted. -/
theorem create_rejects_missing_callback_or_invalid_policy
    (cfg : TaskConfig) (ok : Bool) (now : Nat) (st : SchedulerState)
    (h : cfg.function = 0 ∨ TASK_TYPE_MAX ≤ cfg.type) :
    task_scheduler_create_task cfg ok now st = (INVALID_TASK_ID, st) := by
  rcases h with h | h <;> simp [task_scheduler_create_task, h]

/-- Witness for the amended C3 at a concrete callback-less config. -/
theorem create_rejects_invalid_config_witness :
    ({ cfgOneShot with function := 0 } : TaskConfig).function = 0 ∧
    task_scheduler_create_task { cfgOneShot with function := 0 } true 0
        (task_scheduler_init 0)
      = (INVALID_TASK_ID, task_scheduler_init 0) :=
  ⟨rfl, create_rejects_missing_callback_or_invalid_policy
      { cfgOneShot with function := 0 } true 0 (task_scheduler_init 0)
      (Or.inl rfl)⟩

/-! ### C7 -/

/-- C7 counterexample: deleting the reserved identity 0 — an identity
that belongs to no active task — returns `ESP_ERR_INVALID_ARG`
(task_scheduler.c lines 241-243), not `ESP_ERR_NOT_FOUND`, contradicting
the claim that every inactive identity (including 0) yields
`TaskNotFound`.  The state is still left unchanged. -/
theorem delete_id_zero_returns_invalid_arg :
    (task_scheduler_delete_task 0 (task_scheduler_init 0)).1
        = EspErr.invalidArg ∧
    EspErr.invalidArg ≠ EspErr.notFound ∧
    (task_scheduler_delete_task 0 (task_scheduler_init 0)).2
        = task_scheduler_init 0 := by decide

/-- C7 (amended): for every identity that belongs to no currently-active
task, `task_scheduler_delete_task` leaves the task table, counters and
scheduler statistics completely unchanged, and returns
`ESP_ERR_NOT_FOUND` when the identity is nonzero — the reserved identity
0 is instead rejected up front with `ESP_ERR_INVALID_ARG`. -/
theorem delete_unknown_id_not_found_no_mutation
    (id : Nat) (st : SchedulerState) (hm : st.mutexHeld = false)
    (habs : ∀ t ∈ st.tasks, t.is_active = true → t.id ≠ id) :
    task_scheduler_delete_task id st =
      ((if id = INVALID_TASK_ID then EspErr.invalidArg else EspErr.notFound),
       st) := by
  unfold task_scheduler_delete_task
  split
  · rfl
  · rw [hm]
    simp only [Bool.false_eq_true, if_false]
    rw [deleteFirstById_none_of_absent id st.tasks habs]

/-- Witness for the amended C7 at identity 7 in the initial state. -/
theorem delete_unknown_id_witness :
    (task_scheduler_init 0).mutexHeld = false ∧
    (∀ t ∈ (task_scheduler_init 0).tasks, t.is_active = true → t.id ≠ 7) ∧
    task_scheduler_delete_task 7 (task_scheduler_init 0)
      = (EspErr.notFound, task_scheduler_init 0) :=
  ⟨rfl, by decide,
   by
     have h := delete_unknown_id_not_found_no_mutation 7
       (task_scheduler_init 0) rfl (by decide)
     simpa using h⟩

/-! ### C8 -/

/-- C8 counterexample: `task_scheduler_get_stats` is not read-only — it
writes `scheduler_stats.uptime_ms` (task_scheduler.c line 392) before
copying.  Called at time 5 ms on the freshly initialised state (whose
`uptime_ms` is 0), it leaves the state different from what it was. -/
theorem get_stats_mutates_uptime_field :
    (task_scheduler_get_stats 5 (task_scheduler_init 0)).2.2
        ≠ task_scheduler_init 0 ∧
    ((task_scheduler_get_stats 5 (task_scheduler_init 0)).2.2).scheduler_stats.uptime_ms
        = 5 := by decide

/-- C8 (amended): `task_scheduler_get_task_stats` is read-only — for
every state and every identity it returns a copy of the requested
statistics and leaves the whole scheduler state exactly as it was —
while `task_scheduler_get_stats` refreshes the single scheduler-wide
field `uptime_ms` to `now - start_time` before copying and changes
nothing else. -/
theorem get_stats_functions_read_only_except_uptime
    (id now : Nat) (st : SchedulerState) (hm : st.mutexHeld = false) :
    (task_scheduler_get_task_stats id st).2.2 = st ∧
    (task_scheduler_get_stats now st).2.2 =
      { st with scheduler_stats := { st.scheduler_stats with
          uptime_ms := u32sub now st.scheduler_stats.start_time } } := by
  constructor
  · unfold task_scheduler_get_task_stats
    split
    · rfl
    · split
      · rfl
      · split <;> rfl
  · unfold task_scheduler_get_stats
    rw [hm]
    simp

/-- Witness for the amended C8 at the initial state, id 3, time 9. -/
theorem get_stats_read_only_witness :
    (task_scheduler_init 0).mutexHeld = false ∧
    ((task_scheduler_get_task_stats 3 (task_scheduler_init 0)).2.2
        = task_scheduler_init 0 ∧
     (task_scheduler_get_stats 9 (task_scheduler_init 0)).2.2 =
       { task_scheduler_init 0 with
         scheduler_stats :=
           { (task_scheduler_init 0).scheduler_stats with
             uptime_ms :=
               u32sub 9 (task_scheduler_init 0).scheduler_stats.start_time } }) :=
  ⟨rfl, get_stats_functions_read_only_except_uptime 3 9
      (task_scheduler_init 0) rfl⟩

/-! ### C4 -/

/-- C4: for a OneShot task, in every state of its execution loop reachable
from spawn (under arbitrary interleaving with facade operations clearing
the active flag), the execution count is at most 1 — i.e. exactly 0 or 1
— and once it reaches 1 the execution unit has left the loop (the
dispatch rule makes the body eligible only while the count is 0, and the
`break` exits after the single execution). -/
theorem oneshot_execution_count_at_most_one
    (w : WState) (h : WReach TASK_TYPE_ONESHOT w) :
    w.execution_count ≤ 1 ∧
    (w.execution_count = 1 → w.phase = WPhase.done) := by
  induction h with
  | init => decide
  | step hr hs ih =>
      rename_i w w'
      cases hs with
      | deactivate => exact ih
      | exitLoop hin hact => exact ⟨ih.1, fun _ => rfl⟩
      | pass c hin hact =>
          have hc0 : w.execution_count = 0 := by
            by_contra hne
            have h1 : w.execution_count = 1 := by
              have := ih.1; omega
            have hdone := ih.2 h1
            rw [hin] at hdone
            cases hdone
          have hres : passResult TASK_TYPE_ONESHOT c w =
              { w with execution_count := 1, phase := WPhase.done } := by
            simp [passResult, shouldExecute, TASK_TYPE_ONESHOT,
              TASK_TYPE_PERIODIC, TASK_TYPE_CONDITIONAL, hc0, u32add, U32]
          rw [hres]
          exact ⟨le_refl 1, fun _ => rfl⟩

/-- Witness for C4 at the initial loop state. -/
theorem oneshot_execution_count_witness :
    wInit.execution_count ≤ 1 ∧
    (wInit.execution_count = 1 → wInit.phase = WPhase.done) :=
  oneshot_execution_count_at_most_one wInit WReach.init

/-! ### C5 -/

/-- C5 counterexample: a delayed task (auto_delete = false) fires once
when its timer expires; a subsequent `task_scheduler_resume_task`
unconditionally re-arms the delay (task_scheduler.c lines 343-345) even
though the task was never suspended and has already fired, so the timer
expires again and the callback runs a second time — the fire count
reaches 2, contradicting "never fires a second time". -/
theorem delayed_task_fires_twice_after_resume :
    (dRun [DEv.fire, DEv.resume, DEv.fire] dInit).fires = 2 := by decide

theorem delayed_fire_invariant (evs : List DEv) (s : DState)
    (hnr : DEv.resume ∉ evs)
    (hs : s.fires + (if s.armed then 1 else 0) ≤ 1) :
    (dRun evs s).fires + (if (dRun evs s).armed then 1 else 0) ≤ 1 := by
  induction evs generalizing s with
  | nil => exact hs
  | cons e es ih =>
      have hnr' : DEv.resume ∉ es := by
        intro h; exact hnr (List.mem_cons_of_mem _ h)
      have hne : e ≠ DEv.resume := by
        intro h; exact hnr (h ▸ List.mem_cons_self _ _)
      have hstep : (dStep s e).fires + (if (dStep s e).armed then 1 else 0)
          ≤ 1 := by
        cases e with
        | resume => exact absurd rfl hne
        | fire =>
            rcases s with ⟨a, t, ar, f⟩
            cases a <;> cases ar <;> simp_all [dStep]
        | susp =>
            rcases s with ⟨a, t, ar, f⟩
            cases t <;> cases ar <;> simp_all [dStep]
        | del =>
            rcases s with ⟨a, t, ar, f⟩
            cases ar <;> simp_all [dStep]
      exact ih (dStep s e) hnr' hstep

/-- C5 (amended): a delayed task's one-shot timer is armed once at
creation and the callback fires at most once per arming, so over every
sequence of facade and timer events that contains no resume call the
callback fires at most once; because `task_scheduler_resume_task`
re-arms the configured delay unconditionally — even for a task that
already fired and was never suspended — a resume after firing makes the
callback fire a second time, and a suspend that is never resumed leaves
the task active but never firing. -/
theorem delayed_task_fires_at_most_once_without_resume
    (evs : List DEv) (hnr : DEv.resume ∉ evs) :
    (dRun evs dInit).fires ≤ 1 := by
  have h := delayed_fire_invariant evs dInit hnr (by decide)
  omega

/-- Witness for the amended C5: fire, suspend, then a spurious second
timer expiry — the callback still fires at most once. -/
theorem delayed_task_single_fire_witness :
    DEv.resume ∉ [DEv.fire, DEv.susp, DEv.fire] ∧
    (dRun [DEv.fire, DEv.susp, DEv.fire] dInit).fires ≤ 1 :=
  ⟨by decide, delayed_task_fires_at_most_once_without_resume
      [DEv.fire, DEv.susp, DEv.fire] (by decide)⟩

/-! ### C6 -/

theorem stopSlot_not_active (t : SchedulerTask) :
    (stopSlot t).is_active = false := by
  unfold stopSlot cleanupTask
  split
  · rfl
  · rename_i h
    exact Bool.eq_false_iff.mpr h

theorem stopSlot_idem (t : SchedulerTask) :
    stopSlot (stopSlot t) = stopSlot t := by
  by_cases ht : t.is_active = true
  · simp [stopSlot, cleanupTask, ht]
  · simp [stopSlot, ht]

theorem filter_active_map_stopSlot (l : List SchedulerTask) :
    (l.map stopSlot).filter (fun t => t.is_active) = [] := by
  induction l with
  | nil => rfl
  | cons t ts ih => simp [stopSlot_not_active, ih]

theorem map_stopSlot_idem (l : List SchedulerTask) :
    (l.map stopSlot).map stopSlot = l.map stopSlot := by
  rw [List.map_map]
  exact List.map_congr_left (fun t _ => stopSlot_idem t)

/-- C6: after a successful `task_scheduler_stop_all_tasks` the registry is
empty — no slot is active, the active-task count is zero, and listing
tasks yields the empty sequence — and a second call immediately after
succeeds and changes nothing at all (idempotence). -/
theorem stop_all_empties_registry_and_idempotent
    (st : SchedulerState) (hm : st.mutexHeld = false) :
    (task_scheduler_stop_all_tasks st).1 = EspErr.ok ∧
    countActives (task_scheduler_stop_all_tasks st).2.tasks = 0 ∧
    (task_scheduler_stop_all_tasks st).2.task_count = 0 ∧
    task_scheduler_list_tasks (task_scheduler_stop_all_tasks st).2 = [] ∧
    task_scheduler_stop_all_tasks (task_scheduler_stop_all_tasks st).2
      = (EspErr.ok, (task_scheduler_stop_all_tasks st).2) := by
  have hmain : ∀ s : SchedulerState, s.mutexHeld = false →
      task_scheduler_stop_all_tasks s =
      (EspErr.ok,
       { s with
         tasks := s.tasks.map stopSlot, task_count := 0,
         scheduler_stats := { s.scheduler_stats with active_tasks := 0 } }) := by
    intro s hs
    unfold task_scheduler_stop_all_tasks
    rw [hs]
    rfl
  have h1 := hmain st hm
  refine ⟨by rw [h1], ?_, by rw [h1], ?_, ?_⟩
  · rw [h1]
    unfold countActives
    rw [filter_active_map_stopSlot]
    rfl
  · rw [h1]
    unfold task_scheduler_list_tasks
    rw [filter_active_map_stopSlot]
    rfl
  · rw [h1]
    have h2 := hmain
      { st with
        tasks := st.tasks.map stopSlot, task_count := 0,
        scheduler_stats := { st.scheduler_stats with active_tasks := 0 } } hm
    rw [h2, map_stopSlot_idem]

/-- Witness for C6 on a state holding one freshly created active task. -/
theorem stop_all_witness :
    ((task_scheduler_create_task cfgOneShot true 0
        (task_scheduler_init 0)).2.mutexHeld = false) ∧
    ((task_scheduler_stop_all_tasks
        (task_scheduler_create_task cfgOneShot true 0
          (task_scheduler_init 0)).2).1 = EspErr.ok ∧
     countActives (task_scheduler_stop_all_tasks
        (task_scheduler_create_task cfgOneShot true 0
          (task_scheduler_init 0)).2).2.tasks = 0 ∧
     (task_scheduler_stop_all_tasks
        (task_scheduler_create_task cfgOneShot true 0
          (task_scheduler_init 0)).2).2.task_count = 0 ∧
     task_scheduler_list_tasks (task_scheduler_stop_all_tasks
        (task_scheduler_create_task cfgOneShot true 0
          (task_scheduler_init 0)).2).2 = [] ∧
     task_scheduler_stop_all_tasks (task_scheduler_stop_all_tasks
        (task_scheduler_create_task cfgOneShot true 0
          (task_scheduler_init 0)).2).2
       = (EspErr.ok, (task_scheduler_stop_all_tasks
          (task_scheduler_create_task cfgOneShot true 0
            (task_scheduler_init 0)).2).2)) :=
  ⟨by decide, stop_all_empties_registry_and_idempotent
      (task_scheduler_create_task cfgOneShot true 0
        (task_scheduler_init 0)).2 (by decide)⟩

/-! ### C9 -/

/-- C9: the claim that deleting a task from within its own completion
path never deadlocks and never leaves the scheduler lock permanently
held is violated by the code.  Concrete failing run: a OneShot task
(id 1) created with `auto_delete = true` finishes its single execution;
`task_wrapper` (task_scheduler.c line 527) calls
`task_scheduler_delete_task(1)` from the task's own thread.  That call
takes `scheduler_mutex` and then executes `vTaskDelete(task->handle)`
(line 267) on the caller's own FreeRTOS handle, which terminates the
calling task and never returns, so `xSemaphoreGive` (line 279) never
runs: afterwards the mutex is held forever, the record was never freed
(the slot is still active, so no clean Completed/removed state), and
every subsequent facade operation — delete, stop-all, create — fails
with a lock timeout instead of acquiring the lock. -/
theorem self_delete_leaks_scheduler_mutex :
    (task_scheduler_delete_task_self 1
        (task_scheduler_create_task cfgAutoOneShot true 0
          (task_scheduler_init 0)).2).mutexHeld = true ∧
    countActives (task_scheduler_delete_task_self 1
        (task_scheduler_create_task cfgAutoOneShot true 0
          (task_scheduler_init 0)).2).tasks = 1 ∧
    (task_scheduler_delete_task 1
        (task_scheduler_delete_task_self 1
          (task_scheduler_create_task cfgAutoOneShot true 0
            (task_scheduler_init 0)).2)).1 = EspErr.timeout ∧
    (task_scheduler_stop_all_tasks
        (task_scheduler_delete_task_self 1
          (task_scheduler_create_task cfgAutoOneShot true 0
            (task_scheduler_init 0)).2)).1 = EspErr.timeout ∧
    (task_scheduler_create_task cfgOneShot true 0
        (task_scheduler_delete_task_self 1
          (task_scheduler_create_task cfgAutoOneShot true 0
            (task_scheduler_init 0)).2)).1 = INVALID_TASK_ID := by decide

/-! ### C10 -/

theorem wireTask_is_active (cfg : TaskConfig) (id now : Nat) (ok : Bool)
    (t : SchedulerTask) : (wireTask cfg id now ok t).is_active = ok := by
  unfold wireTask
  cases ok with
  | true => simp only [if_true]; split <;> rfl
  | false => rfl

theorem modifyFirstFree_length (f : SchedulerTask → SchedulerTask)
    (l l' : List SchedulerTask) (h : modifyFirstFree f l = some l') :
    l'.length = l.length := by
  induction l generalizing l' with
  | nil => cases h
  | cons t ts ih =>
      unfold modifyFirstFree at h
      by_cases ht : t.is_active = true
      · rw [if_pos ht] at h
        cases hrec : modifyFirstFree f ts with
        | none => rw [hrec] at h; cases h
        | some ts' =>
            rw [hrec] at h
            cases h
            simp [ih ts' hrec]
      · rw [if_neg ht] at h
        cases h
        simp
  
theorem modifyFirstFree_countActives (f : SchedulerTask → SchedulerTask)
    (b : Bool) (hf : ∀ t, (f t).is_active = b)
    (l l' : List SchedulerTask) (h : modifyFirstFree f l = some l') :
    countActives l' = countActives l + (if b then 1 else 0) := by
  induction l generalizing l' with
  | nil => cases h
  | cons t ts ih =>
      unfold modifyFirstFree at h
      by_cases ht : t.is_active = true
      · rw [if_pos ht] at h
        cases hrec : modifyFirstFree f ts with
        | none => rw [hrec] at h; cases h
        | some ts' =>
            rw [hrec] at h
            cases h
            have := ih ts' hrec
            simp only [countActives, List.filter_cons, ht] at *
            simp only [if_true, List.length_cons] at *
            omega
      · rw [if_neg ht] at h
        cases h
        have ha := hf t
        simp only [countActives, List.filter_cons, ha,
          Bool.not_eq_true] at *
        cases b with
        | true => simp [List.filter_cons, ht]
        | false => simp [List.filter_cons, ht]

theorem deleteFirstById_length (id : Nat) (l l' : List SchedulerTask)
    (h : deleteFirstById id l = some l') : l'.length = l.length := by
  induction l generalizing l' with
  | nil => cases h
  | cons t ts ih =>
      unfold deleteFirstById at h
      by_cases ht : t.is_active = true ∧ t.id = id
      · rw [if_pos ht] at h
        cases h
        simp
      · rw [if_neg ht] at h
        cases hrec : deleteFirstById id ts with
        | none => rw [hrec] at h; cases h
        | some ts' =>
            rw [hrec] at h
            cases h
            simp [ih ts' hrec]

theorem deleteFirstById_countActives (id : Nat) (l l' : List SchedulerTask)
    (h : deleteFirstById id l = some l') :
    countActives l = countActives l' + 1 := by
  induction l generalizing l' with
  | nil => cases h
  | cons t ts ih =>
      unfold deleteFirstById at h
      by_cases ht : t.is_active = true ∧ t.id = id
      · rw [if_pos ht] at h
        cases h
        simp only [countActives, List.filter_cons, ht.1, if_true]
        have : (cleanupTask t).is_active = false := rfl
        simp [this, cleanupTask]
      · rw [if_neg ht] at h
        cases hrec : deleteFirstById id ts with
        | none => rw [hrec] at h; cases h
        | some ts' =>
            rw [hrec] at h
            cases h
            have := ih ts' hrec
            simp only [countActives, List.filter_cons] at *
            by_cases hta : t.is_active = true <;> simp [hta] <;> omega

theorem countActives_map_stopSlot (l : List SchedulerTask) :
    countActives (l.map stopSlot) = 0 := by
  unfold countActives
  rw [filter_active_map_stopSlot]
  rfl

theorem countActives_le_length (l : List SchedulerTask) :
    countActives l ≤ l.length := List.length_filter_le _ l

theorem countInv_apply (st : SchedulerState) (op : SchedOp)
    (h : CountInv st) : CountInv (applySchedOp st op) := by
  obtain ⟨hlen, hcnt, hact⟩ := h
  have hbound : countActives st.tasks ≤ MAX_TASKS := hlen ▸ countActives_le_length st.tasks
  have hbound32 : countActives st.tasks ≤ 32 := by
    unfold MAX_TASKS at hbound; exact hbound
  cases op with
  | create cfg ok now =>
      show CountInv (task_scheduler_create_task cfg ok now st).2
      unfold task_scheduler_create_task
      split
      · exact ⟨hlen, hcnt, hact⟩
      · split
        · exact ⟨hlen, hcnt, hact⟩
        · split
          · exact ⟨hlen, hcnt, hact⟩
          · simp only []
            cases hrec : modifyFirstFree
                (wireTask cfg st.next_task_id now ok) st.tasks with
            | none => exact ⟨hlen, hcnt, hact⟩
            | some ts =>
                have hlen' := modifyFirstFree_length _ _ _ hrec
                have hcnt' := modifyFirstFree_countActives
                  (wireTask cfg st.next_task_id now ok) ok
                  (fun t => wireTask_is_active cfg st.next_task_id now ok t)
                  _ _ hrec
                cases ok with
                | true =>
                    simp only [if_true]
                    refine ⟨by simp [hlen', hlen], ?_, ?_⟩
                    · show u32add st.task_count 1 = countActives ts
                      rw [hcnt', hcnt]
                      unfold u32add U32
                      simp only [if_true]
                      omega
                    · show u32add st.scheduler_stats.active_tasks 1
                          = u32add st.task_count 1
                      rw [hact]
                | false =>
                    simp only [Bool.false_eq_true, if_false]
                    refine ⟨by simp [hlen', hlen], ?_, hact⟩
                    show st.task_count = countActives ts
                    rw [hcnt', hcnt]
                    simp
  | delete id =>
      show CountInv (task_scheduler_delete_task id st).2
      unfold task_scheduler_delete_task
      split
      · exact ⟨hlen, hcnt, hact⟩
      · split
        · exact ⟨hlen, hcnt, hact⟩
        · cases hrec : deleteFirstById id st.tasks with
          | none => exact ⟨hlen, hcnt, hact⟩
          | some ts =>
              have hlen' := deleteFirstById_length _ _ _ hrec
              have hcnt' := deleteFirstById_countActives _ _ _ hrec
              refine ⟨by simp [hlen', hlen], ?_, ?_⟩
              · show u32sub st.task_count 1 = countActives ts
                unfold u32sub U32
                have h1 : st.task_count = countActives ts + 1 := by
                  rw [hcnt, hcnt']
                have h2 : countActives ts + 1 ≤ MAX_TASKS := by
                  rw [← h1, hcnt]; exact hbound
                rw [h1]
                unfold MAX_TASKS at h2
                have e1 : (countActives ts + 1) % 4294967296
                    = countActives ts + 1 := Nat.mod_eq_of_lt (by omega)
                have e2 : (1 : Nat) % 4294967296 = 1 := by decide
                rw [e1, e2]
                have e3 : countActives ts + 1 + (4294967296 - 1)
                    = countActives ts + 4294967296 := by omega
                rw [e3, Nat.add_mod_right]
                exact Nat.mod_eq_of_lt (by omega)
              · show u32sub st.scheduler_stats.active_tasks 1
                    = u32sub st.task_count 1
                rw [hact]
  | stopAll =>
      show CountInv (task_scheduler_stop_all_tasks st).2
      unfold task_scheduler_stop_all_tasks
      split
      · exact ⟨hlen, hcnt, hact⟩
      · exact ⟨by simp [hlen], by rw [countActives_map_stopSlot], rfl⟩

theorem countInv_runOps (ops : List SchedOp) (st : SchedulerState)
    (h : CountInv st) : CountInv (runOps ops st) := by
  induction ops generalizing st with
  | nil => exact h
  | cons op rest ih => exact ih _ (countInv_apply st op h)

/-- C10: in every state reachable from initialisation by any sequence of
create, delete and stop-all operations, the scheduler's `task_count`
equals the number of table slots whose active flag is set and equals the
`active_tasks` field of the scheduler statistics (each operation — also
each failing one, which changes nothing — preserves the equalities). -/
theorem task_count_equals_active_slots_and_stats (ops : List SchedOp) :
    (runOps ops (task_scheduler_init 0)).task_count
        = countActives (runOps ops (task_scheduler_init 0)).tasks ∧
    (runOps ops (task_scheduler_init 0)).scheduler_stats.active_tasks
        = (runOps ops (task_scheduler_init 0)).task_count := by
  have h := countInv_runOps ops (task_scheduler_init 0)
    ⟨by decide, by decide, by decide⟩
  exact ⟨h.2.1, h.2.2⟩

/-! ### C1 -/

theorem wireTask_id (cfg : TaskConfig) (id now : Nat) (ok : Bool)
    (t : SchedulerTask) : (wireTask cfg id now ok t).id = id := by
  unfold wireTask
  cases ok with
  | true => simp only [if_true]; split <;> rfl
  | false => rfl

theorem wrapNext_eq (v : Nat) (h : v + 1 < U32) : wrapNext v = v + 1 := by
  unfold wrapNext
  rw [Nat.mod_eq_of_lt h]
  have : v + 1 ≠ 0 := by omega
  simp [this]

theorem mem_activeIds_cons (t : SchedulerTask) (ts : List SchedulerTask)
    (x : Nat) :
    (x ∈ activeIds (t :: ts)) ↔
      ((t.is_active = true ∧ x = t.id) ∨ x ∈ activeIds ts) := by
  unfold activeIds
  by_cases ht : t.is_active = true <;> simp [List.filter_cons, ht]

theorem mem_activeIds_modifyFirstFree (f : SchedulerTask → SchedulerTask)
    (v : Nat) (hfa : ∀ t, (f t).is_active = true)
    (hfi : ∀ t, (f t).id = v)
    (l l' : List SchedulerTask) (h : modifyFirstFree f l = some l')
    (x : Nat) : x ∈ activeIds l' ↔ (x = v ∨ x ∈ activeIds l) := by
  induction l generalizing l' with
  | nil => cases h
  | cons t ts ih =>
      unfold modifyFirstFree at h
      by_cases ht : t.is_active = true
      · rw [if_pos ht] at h
        cases hrec : modifyFirstFree f ts with
        | none => rw [hrec] at h; cases h
        | some ts' =>
            rw [hrec] at h
            cases h
            rw [mem_activeIds_cons, mem_activeIds_cons, ih ts' hrec]
            tauto
      · rw [if_neg ht] at h
        cases h
        rw [mem_activeIds_cons, mem_activeIds_cons]
        simp only [hfa t, hfi t, true_and]
        have : ¬(t.is_active = true ∧ x = t.id) := fun hc => ht hc.1
        tauto

theorem nodup_activeIds_modifyFirstFree (f : SchedulerTask → SchedulerTask)
    (v : Nat) (hfa : ∀ t, (f t).is_active = true)
    (hfi : ∀ t, (f t).id = v)
    (l l' : List SchedulerTask) (h : modifyFirstFree f l = some l')
    (hnd : (activeIds l).Nodup) (hv : v ∉ activeIds l) :
    (activeIds l').Nodup := by
  induction l generalizing l' with
  | nil => cases h
  | cons t ts ih =>
      unfold modifyFirstFree at h
      by_cases ht : t.is_active = true
      · rw [if_pos ht] at h
        cases hrec : modifyFirstFree f ts with
        | none => rw [hrec] at h; cases h
        | some ts' =>
            rw [hrec] at h
            cases h
            have hcons : activeIds (t :: ts) = t.id :: activeIds ts := by
              unfold activeIds
              simp [List.filter_cons, ht]
            have hcons' : activeIds (t :: ts') = t.id :: activeIds ts' := by
              unfold activeIds
              simp [List.filter_cons, ht]
            rw [hcons] at hnd hv
            rw [hcons']
            refine List.Nodup.cons ?_ (ih ts' hrec hnd.of_cons ?_)
            · intro hmem
              rw [mem_activeIds_modifyFirstFree f v hfa hfi ts ts' hrec] at hmem
              rcases hmem with hmem | hmem
              · exact hv (by simp [hmem])
              · exact (List.nodup_cons.mp hnd).1 hmem
            · intro hmem
              exact hv (by simp [hmem])
      · rw [if_neg ht] at h
        cases h
        have hcons : activeIds (t :: ts) = activeIds ts := by
          unfold activeIds
          simp [List.filter_cons, ht]
        have hcons' : activeIds (f t :: ts) = (f t).id :: activeIds ts := by
          unfold activeIds
          simp [List.filter_cons, hfa t]
        rw [hcons] at hnd hv
        rw [hcons', hfi t]
        exact List.Nodup.cons hv hnd

theorem activeIds_modifyFirstFree_inactive
    (f : SchedulerTask → SchedulerTask)
    (hfa : ∀ t, (f t).is_active = false)
    (l l' : List SchedulerTask) (h : modifyFirstFree f l = some l') :
    activeIds l' = activeIds l := by
  induction l generalizing l' with
  | nil => cases h
  | cons t ts ih =>
      unfold modifyFirstFree at h
      by_cases ht : t.is_active = true
      · rw [if_pos ht] at h
        cases hrec : modifyFirstFree f ts with
        | none => rw [hrec] at h; cases h
        | some ts' =>
            rw [hrec] at h
            cases h
            unfold activeIds at *
            simp [List.filter_cons, ht, ih ts' hrec]
      · rw [if_neg ht] at h
        cases h
        unfold activeIds
        simp [List.filter_cons, ht, hfa t]

theorem activeIds_deleteFirstById_sublist (id : Nat)
    (l l' : List SchedulerTask) (h : deleteFirstById id l = some l') :
    (activeIds l').Sublist (activeIds l) := by
  induction l generalizing l' with
  | nil => cases h
  | cons t ts ih =>
      unfold deleteFirstById at h
      by_cases ht : t.is_active = true ∧ t.id = id
      · rw [if_pos ht] at h
        cases h
        have h1 : activeIds (cleanupTask t :: ts) = activeIds ts := by
          unfold activeIds
          have : (cleanupTask t).is_active = false := rfl
          simp [List.filter_cons, this]
        have h2 : activeIds (t :: ts) = t.id :: activeIds ts := by
          unfold activeIds
          simp [List.filter_cons, ht.1]
        rw [h1, h2]
        exact List.sublist_cons_of_sublist _ (List.Sublist.refl _)
      · rw [if_neg ht] at h
        cases hrec : deleteFirstById id ts with
        | none => rw [hrec] at h; cases h
        | some ts' =>
            rw [hrec] at h
            cases h
            by_cases hta : t.is_active = true
            · have h1 : activeIds (t :: ts') = t.id :: activeIds ts' := by
                unfold activeIds
                simp [List.filter_cons, hta]
              have h2 : activeIds (t :: ts) = t.id :: activeIds ts := by
                unfold activeIds
                simp [List.filter_cons, hta]
              rw [h1, h2]
              exact List.Sublist.cons₂ _ (ih ts' hrec)
            · have h1 : activeIds (t :: ts') = activeIds ts' := by
                unfold activeIds
                simp [List.filter_cons, hta]
              have h2 : activeIds (t :: ts) = activeIds ts := by
                unfold activeIds
                simp [List.filter_cons, hta]
              rw [h1, h2]
              exact ih ts' hrec

theorem activeIds_map_stopSlot (l : List SchedulerTask) :
    activeIds (l.map stopSlot) = [] := by
  unfold activeIds
  rw [filter_active_map_stopSlot]
  rfl

theorem idInv_apply_create (cfg : TaskConfig) (ok : Bool) (now : Nat)
    (st : SchedulerState) (hinv : IdInv st)
    (hlt : st.next_task_id + 1 < U32) :
    IdInv (task_scheduler_create_task cfg ok now st).2 ∧
    (task_scheduler_create_task cfg ok now st).2.next_task_id
      ≤ st.next_task_id + 1 := by
  obtain ⟨hlo, hnd, hone⟩ := hinv
  unfold task_scheduler_create_task
  split
  · exact ⟨⟨hlo, hnd, hone⟩, Nat.le_succ st.next_task_id⟩
  · split
    · exact ⟨⟨hlo, hnd, hone⟩, Nat.le_succ st.next_task_id⟩
    · split
      · exact ⟨⟨hlo, hnd, hone⟩, Nat.le_succ st.next_task_id⟩
      · simp only []
        cases hrec : modifyFirstFree
            (wireTask cfg st.next_task_id now ok) st.tasks with
        | none => exact ⟨⟨hlo, hnd, hone⟩, Nat.le_succ st.next_task_id⟩
        | some ts =>
            have hwx := wrapNext_eq st.next_task_id hlt
            have hvnot : st.next_task_id ∉ activeIds st.tasks := by
              intro hmem
              have := (hlo _ hmem).2
              omega
            cases ok with
            | true =>
                simp only [if_true]
                refine ⟨⟨?_, ?_, ?_⟩, ?_⟩
                · intro x hx
                  have hx' : x ∈ activeIds ts := hx
                  rw [mem_activeIds_modifyFirstFree
                      (wireTask cfg st.next_task_id now true)
                      st.next_task_id
                      (fun t => wireTask_is_active cfg st.next_task_id now true t)
                      (fun t => wireTask_id cfg st.next_task_id now true t)
                      st.tasks ts hrec] at hx'
                  show 1 ≤ x ∧ x < wrapNext st.next_task_id
                  rw [hwx]
                  rcases hx' with rfl | hx'
                  · omega
                  · have := hlo x hx'
                    omega
                · show (activeIds ts).Nodup
                  exact nodup_activeIds_modifyFirstFree
                    (wireTask cfg st.next_task_id now true)
                    st.next_task_id
                    (fun t => wireTask_is_active cfg st.next_task_id now true t)
                    (fun t => wireTask_id cfg st.next_task_id now true t)
                    st.tasks ts hrec hnd hvnot
                · show 1 ≤ wrapNext st.next_task_id
                  rw [hwx]; omega
                · show wrapNext st.next_task_id ≤ st.next_task_id + 1
                  rw [hwx]
            | false =>
                simp only [Bool.false_eq_true, if_false]
                have heq := activeIds_modifyFirstFree_inactive
                  (wireTask cfg st.next_task_id now false)
                  (fun t => wireTask_is_active cfg st.next_task_id now false t)
                  st.tasks ts hrec
                refine ⟨⟨?_, ?_, ?_⟩, ?_⟩
                · intro x hx
                  have hx' : x ∈ activeIds ts := hx
                  rw [heq] at hx'
                  show 1 ≤ x ∧ x < wrapNext st.next_task_id
                  have := hlo x hx'
                  rw [hwx]
                  omega
                · show (activeIds ts).Nodup
                  rw [heq]; exact hnd
                · show 1 ≤ wrapNext st.next_task_id
                  rw [hwx]; omega
                · show wrapNext st.next_task_id ≤ st.next_task_id + 1
                  rw [hwx]

theorem idInv_apply_delete (id : Nat) (st : SchedulerState)
    (hinv : IdInv st) :
    IdInv (task_scheduler_delete_task id st).2 ∧
    (task_scheduler_delete_task id st).2.next_task_id
      = st.next_task_id := by
  obtain ⟨hlo, hnd, hone⟩ := hinv
  unfold task_scheduler_delete_task
  split
  · exact ⟨⟨hlo, hnd, hone⟩, rfl⟩
  · split
    · exact ⟨⟨hlo, hnd, hone⟩, rfl⟩
    · cases hrec : deleteFirstById id st.tasks with
      | none => exact ⟨⟨hlo, hnd, hone⟩, rfl⟩
      | some ts =>
          have hsub := activeIds_deleteFirstById_sublist id st.tasks ts hrec
          refine ⟨⟨?_, ?_, ?_⟩, rfl⟩
          · intro x hx
            have hx' : x ∈ activeIds ts := hx
            show 1 ≤ x ∧ x < st.next_task_id
            exact hlo x (hsub.subset hx')
          · show (activeIds ts).Nodup
            exact hnd.sublist hsub
          · exact hone

theorem idInv_apply_stopAll (st : SchedulerState) (hinv : IdInv st) :
    IdInv (task_scheduler_stop_all_tasks st).2 ∧
    (task_scheduler_stop_all_tasks st).2.next_task_id
      = st.next_task_id := by
  obtain ⟨hlo, hnd, hone⟩ := hinv
  unfold task_scheduler_stop_all_tasks
  split
  · exact ⟨⟨hlo, hnd, hone⟩, rfl⟩
  · refine ⟨⟨?_, ?_, ?_⟩, rfl⟩
    · intro x hx
      have hx' : x ∈ activeIds (st.tasks.map stopSlot) := hx
      rw [activeIds_map_stopSlot] at hx'
      cases hx'
    · show (activeIds (st.tasks.map stopSlot)).Nodup
      rw [activeIds_map_stopSlot]
      exact List.nodup_nil
    · exact hone

theorem idInv_runOps (ops : List SchedOp) (st : SchedulerState)
    (hinv : IdInv st)
    (hbud : st.next_task_id + createCount ops ≤ U32 - 1) :
    IdInv (runOps ops st) := by
  induction ops generalizing st with
  | nil => exact hinv
  | cons op rest ih =>
      cases op with
      | create cfg ok now =>
          have hcc : createCount (SchedOp.create cfg ok now :: rest)
              = createCount rest + 1 := rfl
          rw [hcc] at hbud
          have hU : U32 = 4294967296 := rfl
          have hlt : st.next_task_id + 1 < U32 := by omega
          obtain ⟨hinv', hle⟩ := idInv_apply_create cfg ok now st
            ⟨hinv.1, hinv.2.1, hinv.2.2⟩ hlt
          refine ih _ hinv' ?_
          show (task_scheduler_create_task cfg ok now st).2.next_task_id
              + createCount rest ≤ U32 - 1
          omega
      | delete id =>
          obtain ⟨hinv', heq⟩ := idInv_apply_delete id st
            ⟨hinv.1, hinv.2.1, hinv.2.2⟩
          refine ih _ hinv' ?_
          show (task_scheduler_delete_task id st).2.next_task_id
              + createCount rest ≤ U32 - 1
          rw [heq]
          exact hbud
      | stopAll =>
          obtain ⟨hinv', heq⟩ := idInv_apply_stopAll st
            ⟨hinv.1, hinv.2.1, hinv.2.2⟩
          refine ih _ hinv' ?_
          show (task_scheduler_stop_all_tasks st).2.next_task_id
              + createCount rest ≤ U32 - 1
          rw [heq]
          exact hbud

/-- C1 (amended): over every sequence of create and delete (and stop-all)
operations containing at most `2^32 - 2` creates — i.e. before the
identity counter has wrapped around — all identities of currently-active
tasks are pairwise distinct and non-zero: `task_scheduler_create_task`
draws fresh identities from the monotonically increasing counter, which
wraps around skipping the reserved value 0 but does not skip identities
of still-active tasks, so after a wraparound a returned identity can
coincide with that of another active task. -/
theorem active_ids_distinct_nonzero_before_wraparound
    (ops : List SchedOp) (hbud : createCount ops ≤ U32 - 2) :
    (task_scheduler_list_tasks (runOps ops (task_scheduler_init 0))).Nodup ∧
    ∀ x ∈ task_scheduler_list_tasks (runOps ops (task_scheduler_init 0)),
      x ≠ 0 := by
  have hinit : IdInv (task_scheduler_init 0) := by
    refine ⟨?_, ?_, by decide⟩
    · intro x hx
      have hnil : activeIds (task_scheduler_init 0).tasks = [] := by decide
      rw [hnil] at hx
      cases hx
    · have hnil : activeIds (task_scheduler_init 0).tasks = [] := by decide
      rw [hnil]
      exact List.nodup_nil
  have h := idInv_runOps ops (task_scheduler_init 0) hinit
    (by
      show 1 + createCount ops ≤ U32 - 1
      have hU : U32 = 4294967296 := rfl
      omega)
  refine ⟨h.2.1, fun x hx => ?_⟩
  have := (h.1 x hx).1
  omega

/-- Witness for the amended C1: two creates and a delete. -/
theorem active_ids_distinct_nonzero_witness :
    createCount [SchedOp.create cfgOneShot true 0,
      SchedOp.create cfgOneShot true 0, SchedOp.delete 1] ≤ U32 - 2 ∧
    ((task_scheduler_list_tasks (runOps [SchedOp.create cfgOneShot true 0,
        SchedOp.create cfgOneShot true 0, SchedOp.delete 1]
        (task_scheduler_init 0))).Nodup ∧
     ∀ x ∈ task_scheduler_list_tasks (runOps [SchedOp.create cfgOneShot true 0,
        SchedOp.create cfgOneShot true 0, SchedOp.delete 1]
        (task_scheduler_init 0)), x ≠ 0) :=
  ⟨by decide, active_ids_distinct_nonzero_before_wraparound
      [SchedOp.create cfgOneShot true 0, SchedOp.create cfgOneShot true 0,
       SchedOp.delete 1] (by decide)⟩

theorem modifyFirstFree_cons_active (f : SchedulerTask → SchedulerTask)
    (t : SchedulerTask) (ts : List SchedulerTask)
    (h : t.is_active = true) :
    modifyFirstFree f (t :: ts)
      = (modifyFirstFree f ts).map (fun l => t :: l) := by
  simp only [modifyFirstFree, if_pos h]

theorem modifyFirstFree_cons_inactive (f : SchedulerTask → SchedulerTask)
    (t : SchedulerTask) (ts : List SchedulerTask)
    (h : t.is_active = false) :
    modifyFirstFree f (t :: ts) = some (f t :: ts) := by
  simp only [modifyFirstFree, h, Bool.false_eq_true, if_false]

theorem deleteFirstById_cons_match (id : Nat) (t : SchedulerTask)
    (ts : List SchedulerTask) (h : t.is_active = true ∧ t.id = id) :
    deleteFirstById id (t :: ts) = some (cleanupTask t :: ts) := by
  simp only [deleteFirstById, if_pos h]

theorem deleteFirstById_cons_nomatch (id : Nat) (t : SchedulerTask)
    (ts : List SchedulerTask) (h : ¬(t.is_active = true ∧ t.id = id)) :
    deleteFirstById id (t :: ts)
      = (deleteFirstById id ts).map (fun l => t :: l) := by
  simp only [deleteFirstById, if_neg h]

theorem wireTask_on_inactive (v : Nat) (s1 : SchedulerTask)
    (hlw : s1.last_wakeup_time = 0) :
    wireTask cfgOneShot v 0 true s1 = roundRec v := by
  rcases s1 with ⟨i, c, stt, h, ia, ct, lw, tm⟩
  obtain rfl : lw = 0 := hlw
  rfl

theorem create_on_mkR (v tc : Nat) (s1 : SchedulerTask)
    (hs1 : s1.is_active = false) (hlw : s1.last_wakeup_time = 0) :
    task_scheduler_create_task cfgOneShot true 0 (mkR v tc s1)
      = (v, midR v (wrapNext v) ((tc + 1) % U32)) := by
  have hmod : modifyFirstFree (wireTask cfgOneShot v 0 true)
      (roundRec 1 :: s1 :: List.replicate 30 zeroTask)
      = some (roundRec 1 :: roundRec v :: List.replicate 30 zeroTask) := by
    rw [modifyFirstFree_cons_active _ _ _ rfl,
        modifyFirstFree_cons_inactive _ _ _ hs1,
        wireTask_on_inactive v s1 hlw]
    rfl
  unfold task_scheduler_create_task
  rw [if_neg (by decide : ¬(cfgOneShot.function = 0))]
  rw [if_neg (by decide : ¬(TASK_TYPE_MAX ≤ cfgOneShot.type))]
  rw [if_neg (show ¬((mkR v tc s1).mutexHeld = true) from by simp [mkR])]
  simp only [mkR]
  rw [hmod]
  rfl

theorem delete_on_midR (v nx tt : Nat) (hv : 2 ≤ v) :
    task_scheduler_delete_task v (midR v nx tt)
      = (EspErr.ok, mkR nx tt (residualRec v)) := by
  have hdel : deleteFirstById v
      (roundRec 1 :: roundRec v :: List.replicate 30 zeroTask)
      = some (roundRec 1 :: residualRec v :: List.replicate 30 zeroTask) := by
    rw [deleteFirstById_cons_nomatch v (roundRec 1)
        (roundRec v :: List.replicate 30 zeroTask)
        (by
          rintro ⟨-, h2⟩
          have h1 : (1 : Nat) = v := h2
          omega),
        deleteFirstById_cons_match v (roundRec v)
        (List.replicate 30 zeroTask) ⟨rfl, rfl⟩]
    rfl
  unfold task_scheduler_delete_task
  rw [if_neg (show ¬(v = INVALID_TASK_ID) from by
    unfold INVALID_TASK_ID; omega)]
  rw [if_neg (show ¬((midR v nx tt).mutexHeld = true) from by simp [midR])]
  simp only [midR]
  rw [hdel]
  rfl

theorem round_step (v tc : Nat) (s1 : SchedulerTask)
    (hs1 : s1.is_active = false) (hlw : s1.last_wakeup_time = 0)
    (hv : 2 ≤ v) (hvU : v + 1 < U32) :
    runOps [SchedOp.create cfgOneShot true 0, SchedOp.delete v]
        (mkR v tc s1)
      = mkR (v + 1) ((tc + 1) % U32) (residualRec v) := by
  have h1 := create_on_mkR v tc s1 hs1 hlw
  have h2 := delete_on_midR v (wrapNext v) ((tc + 1) % U32) hv
  show (task_scheduler_delete_task v
      (task_scheduler_create_task cfgOneShot true 0 (mkR v tc s1)).2).2
    = mkR (v + 1) ((tc + 1) % U32) (residualRec v)
  rw [h1]
  show (task_scheduler_delete_task v
      (midR v (wrapNext v) ((tc + 1) % U32))).2
    = mkR (v + 1) ((tc + 1) % U32) (residualRec v)
  rw [h2]
  show mkR (wrapNext v) ((tc + 1) % U32) (residualRec v)
    = mkR (v + 1) ((tc + 1) % U32) (residualRec v)
  rw [wrapNext_eq v hvU]

theorem rounds_run : ∀ (n v tc : Nat) (s1 : SchedulerTask),
    s1.is_active = false → s1.last_wakeup_time = 0 →
    2 ≤ v → v + n ≤ U32 - 1 → tc < U32 →
    ∃ s2 : SchedulerTask, s2.is_active = false ∧
      s2.last_wakeup_time = 0 ∧
      runOps (roundsLin v n) (mkR v tc s1)
        = mkR (v + n) ((tc + n) % U32) s2 := by
  intro n
  induction n with
  | zero =>
      intro v tc s1 h1 h2 _ _ htc
      refine ⟨s1, h1, h2, ?_⟩
      show mkR v tc s1 = mkR (v + 0) ((tc + 0) % U32) s1
      rw [Nat.add_zero, Nat.add_zero, Nat.mod_eq_of_lt htc]
  | succ n ih =>
      intro v tc s1 h1 h2 hv hvn htc
      have hU : U32 = 4294967296 := rfl
      have hstep := round_step v tc s1 h1 h2 hv (by omega)
      have hcons : runOps (roundsLin v (n + 1)) (mkR v tc s1)
          = runOps (roundsLin (v + 1) n)
              (runOps [SchedOp.create cfgOneShot true 0, SchedOp.delete v]
                (mkR v tc s1)) := rfl
      rw [hcons, hstep]
      obtain ⟨s2, hs2a, hs2b, hrun⟩ := ih (v + 1) ((tc + 1) % U32)
        (residualRec v) rfl rfl (by omega) (by omega)
        (Nat.mod_lt _ (by decide))
      refine ⟨s2, hs2a, hs2b, ?_⟩
      rw [hrun]
      have e1 : v + 1 + n = v + (n + 1) := by omega
      have e2 : ((tc + 1) % U32 + n) % U32 = (tc + (n + 1)) % U32 := by
        rw [Nat.mod_add_mod]
        congr 1
        omega
      rw [e1, e2]

theorem create_on_midR (v nx tt : Nat) :
    task_scheduler_create_task cfgOneShot true 0 (midR v nx tt)
      = (nx, finR v nx ((tt + 1) % U32)) := by
  have hmod : modifyFirstFree (wireTask cfgOneShot nx 0 true)
      (roundRec 1 :: roundRec v :: List.replicate 30 zeroTask)
      = some (roundRec 1 :: roundRec v :: roundRec nx ::
          List.replicate 29 zeroTask) := by
    rw [show (List.replicate 30 zeroTask : List SchedulerTask)
        = zeroTask :: List.replicate 29 zeroTask from rfl]
    rw [modifyFirstFree_cons_active _ _ _ rfl,
        modifyFirstFree_cons_active _ _ _ rfl,
        modifyFirstFree_cons_inactive _ _ _ rfl,
        wireTask_on_inactive nx zeroTask rfl]
    rfl
  unfold task_scheduler_create_task
  rw [if_neg (by decide : ¬(cfgOneShot.function = 0))]
  rw [if_neg (by decide : ¬(TASK_TYPE_MAX ≤ cfgOneShot.type))]
  rw [if_neg (show ¬((midR v nx tt).mutexHeld = true) from by simp [midR])]
  simp only [midR]
  rw [hmod]
  rfl

theorem filter_active_replicate_zero (n : Nat) :
    (List.replicate n zeroTask).filter (fun t => t.is_active) = [] := by
  induction n with
  | zero => rfl
  | succ n ih => simp [List.replicate_succ, List.filter_cons, zeroTask, ih]

theorem listTasks_finR (v nx tt : Nat) :
    task_scheduler_list_tasks (finR v nx tt) = [1, v, nx] := by
  unfold task_scheduler_list_tasks finR roundRec
  simp [List.filter_cons, zeroTask, filter_active_replicate_zero 29]

/-- C1 counterexample: the claim fails for the concrete operation
sequence `wrapOps` — create a long-lived task (id 1), drive the identity
counter around its full `uint32_t` cycle with `2^32 - 3` create/delete
rounds, then create twice more.  The counter only skips the reserved
value 0, not identities of still-active tasks, so the final create
returns id 1 again while the first task (id 1) is still active: the
identities of the currently-active tasks are not pairwise distinct. -/
theorem wraparound_duplicates_active_ids :
    ¬ (task_scheduler_list_tasks
        (runOps wrapOps (task_scheduler_init 0))).Nodup := by
  have hU : U32 = 4294967296 := rfl
  have h0 : applySchedOp (task_scheduler_init 0)
      (SchedOp.create cfgOneShot true 0) = mkR 2 1 zeroTask := by decide
  obtain ⟨s2, hs2a, hs2b, hrun⟩ := rounds_run (U32 - 3) 2 1 zeroTask
    rfl rfl (le_refl 2) (by omega) (by omega)
  have hsplit : runOps wrapOps (task_scheduler_init 0)
      = runOps [SchedOp.create cfgOneShot true 0,
          SchedOp.create cfgOneShot true 0]
          (runOps (roundsLin 2 (U32 - 3)) (mkR 2 1 zeroTask)) := by
    unfold wrapOps runOps
    rw [List.foldl_cons, List.foldl_append]
    rw [h0]
  rw [hsplit, hrun]
  have e1 : 2 + (U32 - 3) = U32 - 1 := by omega
  have e2 : (1 + (U32 - 3)) % U32 = U32 - 2 := by rw [hU]
  rw [e1, e2]
  have hc1 := create_on_mkR (U32 - 1) (U32 - 2) s2 hs2a hs2b
  have ew : wrapNext (U32 - 1) = 1 := by rw [hU]; decide
  have e3 : (U32 - 2 + 1) % U32 = U32 - 1 := by rw [hU]
  rw [ew, e3] at hc1
  have hfin : runOps [SchedOp.create cfgOneShot true 0,
      SchedOp.create cfgOneShot true 0] (mkR (U32 - 1) (U32 - 2) s2)
      = finR (U32 - 1) 1 ((U32 - 1 + 1) % U32) := by
    show (task_scheduler_create_task cfgOneShot true 0
        (task_scheduler_create_task cfgOneShot true 0
          (mkR (U32 - 1) (U32 - 2) s2)).2).2
      = finR (U32 - 1) 1 ((U32 - 1 + 1) % U32)
    rw [hc1]
    show (task_scheduler_create_task cfgOneShot true 0
        (midR (U32 - 1) 1 (U32 - 1))).2
      = finR (U32 - 1) 1 ((U32 - 1 + 1) % U32)
    rw [create_on_midR (U32 - 1) 1 (U32 - 1)]
  rw [hfin, listTasks_finR]
  rw [hU]
  decide
